import Mathlib

/-!
Verification of the analytics engine of the shop management system
(`src/streamlit.py`): stock classification, sale aggregation
(inner join + revenue), weekly rollup (ISO-week bucketing, group/sort/sum,
trend), and insight composition (revenue contribution, restock velocity
and urgency).

Machine floats in the source are modelled by exact rationals `ℚ`; the
only place where IEEE special values matter (division by a zero velocity,
which yields `inf`/`NaN` in pandas rather than raising) is modelled
explicitly by the `PdFloat` type below.
-/

/-! ### Calendar arithmetic

`sale_date` strings are parsed by pandas into timestamps; the rollup uses
`dt.isocalendar().week` and `dt.year`, and the restock window compares
timestamps against `now - timedelta(days=30)`.  We model a timestamp as a
Gregorian date plus seconds-within-day, with a proleptic-Gregorian ordinal
day count for comparisons and day-of-week. -/

structure Timestamp where
  year : Nat
  month : Nat
  day : Nat
  secs : Nat
  deriving DecidableEq, Repr

def isLeap (y : Nat) : Bool :=
  (y % 4 == 0 && y % 100 != 0) || (y % 400 == 0)

/-- Cumulative days before month `m` (1-based) in a non-leap year. -/
def daysBeforeMonth (m : Nat) : Nat :=
  [0, 31, 59, 90, 120, 151, 181, 212, 243, 273, 304, 334].getD (m - 1) 0

/-- Day of year, 1-based (Jan 1 = 1). -/
def dayOfYear (t : Timestamp) : Nat :=
  daysBeforeMonth t.month + (if isLeap t.year && t.month > 2 then 1 else 0) + t.day

/-- Days of the proleptic Gregorian calendar strictly before year `y`. -/
def daysBeforeYear (y : Nat) : Nat :=
  365 * (y - 1) + (y - 1) / 4 - (y - 1) / 100 + (y - 1) / 400

/-- Proleptic Gregorian ordinal day: 0001-01-01 is day 1 (a Monday). -/
def ordinalDay (t : Timestamp) : Nat :=
  daysBeforeYear t.year + dayOfYear t

/-- Seconds since the proleptic epoch; orders timestamps exactly as
`datetime` comparison does. -/
def toSecs (t : Timestamp) : Nat :=
  ordinalDay t * 86400 + t.secs

/-- ISO weekday: Monday = 1 … Sunday = 7. -/
def isoWeekday (t : Timestamp) : Nat :=
  (ordinalDay t - 1) % 7 + 1

/-- Day of week of Dec 31 of year `y` determines how many ISO weeks `y` has. -/
def isoWeeksInYear (y : Nat) : Nat :=
  let p : Nat → Nat := fun z => (z + z / 4 - z / 100 + z / 400) % 7
  if p y = 4 || p (y - 1) = 3 then 53 else 52

/-- ISO-8601 calendar of a date: (ISO year, ISO week number), as returned by
pandas `Series.dt.isocalendar()`. -/
def isocalendar (t : Timestamp) : Nat × Nat :=
  let w := (dayOfYear t + 10 - isoWeekday t) / 7
  if w = 0 then (t.year - 1, isoWeeksInYear (t.year - 1))
  else if isoWeeksInYear t.year < w then (t.year + 1, 1)
  else (t.year, w)

/-! ### Data model (`products` and `sales` tables) -/

structure Product where
  id : String
  name : String
  price : ℚ
  quantity : ℤ
  deriving DecidableEq, Repr

structure Sale where
  id : String
  productId : String
  quantitySold : ℤ
  saleDate : Timestamp
  deriving DecidableEq, Repr

/-! ### Stock classifier (`get_products`, lines 41–47)

`df['Stock Status'] = df['Quantity'].apply(lambda x: 'Out of Stock' if x == 0
else 'Low Stock' if x < 5 else 'In Stock')` -/

def stockStatus (x : ℤ) : String :=
  if x = 0 then "Out of Stock" else if x < 5 then "Low Stock" else "In Stock"

structure ProductRow where
  id : String
  name : String
  price : ℚ
  quantity : ℤ
  status : String
  deriving DecidableEq, Repr

def get_products (products : List Product) : List ProductRow :=
  products.map fun p =>
    { id := p.id, name := p.name, price := p.price, quantity := p.quantity,
      status := stockStatus p.quantity }

/-! ### Sale aggregator (`get_sales`, lines 60–68)

SQL inner join of `sales` to `products` on `product_id`, then
`df['Revenue'] = df['Quantity Sold'] * df['Price']`. -/

structure EnrichedSale where
  saleId : String
  name : String
  quantitySold : ℤ
  saleDate : Timestamp
  price : ℚ
  revenue : ℚ
  deriving DecidableEq, Repr

def get_sales (sales : List Sale) (products : List Product) : List EnrichedSale :=
  sales.flatMap fun s =>
    (products.filter fun p => p.id == s.productId).map fun p =>
      { saleId := s.id, name := p.name, quantitySold := s.quantitySold,
        saleDate := s.saleDate, price := p.price,
        revenue := (s.quantitySold : ℚ) * p.price }

/-! ### Weekly rollup (`get_weekly_sales`, lines 71–81)

`Week = dt.isocalendar().week` (ISO week number) but `Year = dt.year`
(the *calendar* year).  `groupby(['Year','Week'])` sums quantity and
revenue per key and returns keys sorted ascending (pandas default). -/

/-- The grouping key the code assigns to a sale: calendar year paired with
ISO week number. -/
def bucketKey (s : EnrichedSale) : Nat × Nat :=
  (s.saleDate.year, (isocalendar s.saleDate).2)

/-- Ascending lexicographic order on (Year, Week) keys, as pandas sorts
group keys. -/
def keyLE (a b : Nat × Nat) : Prop :=
  a.1 < b.1 ∨ (a.1 = b.1 ∧ a.2 ≤ b.2)

instance : DecidableRel keyLE := fun a b => by
  unfold keyLE; infer_instance

instance : IsTotal (Nat × Nat) keyLE := by
  constructor
  intro a b
  unfold keyLE
  omega

instance : IsTrans (Nat × Nat) keyLE := by
  constructor
  intro a b c hab hbc
  unfold keyLE at *
  omega

structure WeeklyBucket where
  year : Nat
  week : Nat
  quantitySold : ℤ
  revenue : ℚ
  deriving DecidableEq, Repr

def weeklyKeys (sales : List EnrichedSale) : List (Nat × Nat) :=
  List.insertionSort keyLE (sales.map bucketKey).dedup

def get_weekly_sales (sales : List EnrichedSale) : List WeeklyBucket :=
  (weeklyKeys sales).map fun k =>
    { year := k.1, week := k.2,
      quantitySold := ((sales.filter fun s => bucketKey s == k).map (·.quantitySold)).sum,
      revenue := ((sales.filter fun s => bucketKey s == k).map (·.revenue)).sum }

/-! ### Trend classification (`get_insights`, lines 92–97)

`diff()` yields NaN on the first row; the lambda's two comparisons are
both false on NaN, so the `none` case falls through to `'Stable'`. -/

def trendLambda : Option ℤ → String
  | some x => if 0 < x then "Increasing" else if x < 0 then "Decreasing" else "Stable"
  | none => "Stable"

def trendColumn : Option ℤ → List WeeklyBucket → List String
  | _, [] => []
  | prev, b :: rest =>
      trendLambda (prev.map fun p => b.quantitySold - p) ::
        trendColumn (some b.quantitySold) rest

def get_insights_trend (weekly : List WeeklyBucket) : List String :=
  if 2 ≤ weekly.length then trendColumn none weekly
  else weekly.map fun _ => "Insufficient Data"

/-! ### Revenue contribution (`get_insights`, lines 99–100) -/

def total_revenue (sales : List EnrichedSale) : ℚ :=
  (sales.map (·.revenue)).sum

def groupNames (sales : List EnrichedSale) : List String :=
  List.insertionSort (· ≤ ·) (sales.map (·.name)).dedup

def revenue_contribution (sales : List EnrichedSale) : List (String × ℚ) :=
  (groupNames sales).map fun n =>
    (n, ((sales.filter fun s => s.name == n).map (·.revenue)).sum
          / total_revenue sales * 100)

/-! ### Restock recommendations (`get_insights`, lines 102–109)

pandas float division by zero does not raise: it produces `inf` (positive
numerator), `-inf` (negative) or `NaN` (`0/0`), and `<` comparisons against
`inf` and `NaN` are false.  `PdFloat` models exactly this. -/

inductive PdFloat where
  | fin : ℚ → PdFloat
  | inf : PdFloat
  | ninf : PdFloat
  | nan : PdFloat
  deriving DecidableEq, Repr

def pdDiv (a b : ℚ) : PdFloat :=
  if b = 0 then
    if 0 < a then .inf else if a < 0 then .ninf else .nan
  else .fin (a / b)

def pdLt (x : PdFloat) (c : ℚ) : Bool :=
  match x with
  | .fin q => decide (q < c)
  | .inf => false
  | .ninf => true
  | .nan => false

def urgencyLambda (x : PdFloat) : String :=
  if pdLt x 7 then "Urgent" else if pdLt x 14 then "Moderate" else "Low"

/-- `sales[sales['Sale Date'] >= datetime.now() - timedelta(days=30)]`,
with the reference time `now` in epoch seconds. -/
def recent_sales (sales : List EnrichedSale) (now : Nat) : List EnrichedSale :=
  sales.filter fun s => now ≤ toSecs s.saleDate + 30 * 86400

/-- `recent_sales.groupby('Name')['Quantity Sold'].sum() / 30`: the series
holds an entry only for names that occur in the recent window. -/
def sales_velocity (sales : List EnrichedSale) (now : Nat) (name : String) : Option ℚ :=
  let recent := recent_sales sales now
  if recent.any fun s => s.name == name then
    some (((recent.filter fun s => s.name == name).map (·.quantitySold)).sum / 30)
  else none

structure RestockRow where
  name : String
  quantity : ℤ
  daysToDepletion : PdFloat
  urgency : String
  deriving DecidableEq, Repr

def restock_recommendations (products : List Product) (sales : List EnrichedSale)
    (now : Nat) : List RestockRow :=
  products.map fun p =>
    let v := (sales_velocity sales now p.name).getD 0
    let d := pdDiv (p.quantity : ℚ) v
    { name := p.name, quantity := p.quantity, daysToDepletion := d,
      urgency := urgencyLambda d }

/-! ## Helper lemmas -/

/-- One step of the group-then-sum partition argument: prepending an element
whose key occurs (exactly once, by `Nodup`) in `keys` adds its value once to
the grouped total. -/
theorem sum_map_filter_key_cons {α κ M : Type} [BEq κ] [LawfulBEq κ]
    [AddCommMonoid M] (key : α → κ) (val : α → M) (a : α) (tl : List α) :
    ∀ keys : List κ, keys.Nodup → key a ∈ keys →
      (keys.map fun k => (((a :: tl).filter fun x => key x == k).map val).sum).sum
        = val a + (keys.map fun k => ((tl.filter fun x => key x == k).map val).sum).sum := by
  intro keys
  induction keys with
  | nil => intro _ h; cases h
  | cons k ks ih =>
      intro hnd hmem
      rcases List.nodup_cons.mp hnd with ⟨hknotin, hndks⟩
      by_cases hk : key a = k
      · have hfilter : ((a :: tl).filter fun x => key x == k)
            = a :: (tl.filter fun x => key x == k) := by
          simp [List.filter_cons, hk]
        have hrest : (ks.map fun k' => (((a :: tl).filter fun x => key x == k').map val).sum)
            = ks.map fun k' => ((tl.filter fun x => key x == k').map val).sum := by
          apply List.map_congr_left
          intro k' hk'
          have hne : key a ≠ k' := fun h => hknotin (by rw [← hk, h]; exact hk')
          simp [List.filter_cons, hne]
        simp [hfilter, hrest, add_assoc]
      · have hfilter : ((a :: tl).filter fun x => key x == k)
            = tl.filter fun x => key x == k := by
          simp [List.filter_cons, hk]
        have hmem' : key a ∈ ks := by
          rcases List.mem_cons.mp hmem with h | h
          · exact absurd h hk
          · exact h
        have := ih hndks hmem'
        simp only [List.map_cons, List.sum_cons, hfilter, this]
        rw [add_left_comm]
  
/-- Partitioning a list by a key function and summing each group recovers the
total sum, provided `keys` is duplicate-free and covers every element. -/
theorem sum_map_filter_key {α κ M : Type} [BEq κ] [LawfulBEq κ]
    [AddCommMonoid M] (key : α → κ) (val : α → M) :
    ∀ (l : List α) (keys : List κ), keys.Nodup → (∀ a ∈ l, key a ∈ keys) →
      (keys.map fun k => ((l.filter fun x => key x == k).map val).sum).sum
        = (l.map val).sum := by
  intro l
  induction l with
  | nil => intro keys _ _; simp
  | cons a tl ih =>
      intro keys hnd hcov
      rw [sum_map_filter_key_cons key val a tl keys hnd (hcov a (List.mem_cons_self a tl))]
      rw [ih keys hnd fun x hx => hcov x (List.mem_cons_of_mem a hx)]
      simp

/-! ## Claim theorems -/

/-- C8: the stock classifier is a pure function of quantity matching the
thresholds exactly at the boundaries: quantity 0 → 'Out of Stock', quantity
strictly between 0 and 5 → 'Low Stock', quantity ≥ 5 → 'In Stock'. -/
theorem stock_status_thresholds (products : List Product) (p : Product)
    (hp : p ∈ products) :
    ∃ r ∈ get_products products, r.id = p.id ∧ r.quantity = p.quantity ∧
      r.status = stockStatus p.quantity ∧
      (p.quantity = 0 → r.status = "Out of Stock") ∧
      (0 < p.quantity → p.quantity < 5 → r.status = "Low Stock") ∧
      (5 ≤ p.quantity → r.status = "In Stock") := by
  refine ⟨_, List.mem_map_of_mem _ hp, rfl, rfl, rfl, ?_, ?_, ?_⟩ <;>
    · intros
      simp only [stockStatus]
      split_ifs <;> first | rfl | omega

/-- Witness for C8 at the boundary quantities 0, 4 and 5. -/
theorem stock_status_thresholds_witness :
    (∃ r ∈ get_products [⟨"a", "A", 1, 0⟩], r.status = "Out of Stock") ∧
    (∃ r ∈ get_products [⟨"b", "B", 1, 4⟩], r.status = "Low Stock") ∧
    (∃ r ∈ get_products [⟨"c", "C", 1, 5⟩], r.status = "In Stock") := by
  refine ⟨?_, ?_, ?_⟩
  · obtain ⟨r, hr, _, _, _, h0, _, _⟩ :=
      stock_status_thresholds [⟨"a", "A", 1, 0⟩] ⟨"a", "A", 1, 0⟩ (by simp)
    exact ⟨r, hr, h0 rfl⟩
  · obtain ⟨r, hr, _, _, _, _, h4, _⟩ :=
      stock_status_thresholds [⟨"b", "B", 1, 4⟩] ⟨"b", "B", 1, 4⟩ (by simp)
    exact ⟨r, hr, h4 (by norm_num) (by norm_num)⟩
  · obtain ⟨r, hr, _, _, _, _, _, h5⟩ :=
      stock_status_thresholds [⟨"c", "C", 1, 5⟩] ⟨"c", "C", 1, 5⟩ (by simp)
    exact ⟨r, hr, h5 (by norm_num)⟩

/-- C10: the classifier is total over all integers; every strictly negative
quantity is classified 'Low Stock' (not 'Out of Stock', which fires only at
exactly 0). -/
theorem negative_quantity_low_stock (x : ℤ) (hx : x < 0) :
    stockStatus x = "Low Stock" ∧ stockStatus x ≠ "Out of Stock" := by
  have h0 : ¬ x = 0 := by omega
  have h5 : x < 5 := by omega
  constructor
  · simp [stockStatus, h0, h5]
  · simp [stockStatus, h0, h5]

/-- Witness for C10 at quantity -3. -/
theorem negative_quantity_low_stock_witness :
    stockStatus (-3) = "Low Stock" ∧ stockStatus (-3) ≠ "Out of Stock" :=
  negative_quantity_low_stock (-3) (by norm_num)

/-- Concrete records used by witnesses. -/
def wProduct : Product := ⟨"p1", "Widget", 10, 7⟩

def wSale : Sale := ⟨"s1", "p1", 2, ⟨2025, 1, 6, 0⟩⟩

def wOrphanSale : Sale := ⟨"s2", "nosuch", 1, ⟨2025, 1, 7, 0⟩⟩

/-- C7: every enriched sale's revenue equals its quantity sold times the
current unit price of the product it joined against. -/
theorem enriched_revenue_eq_qty_mul_price (sales : List Sale)
    (products : List Product) (r : EnrichedSale)
    (hr : r ∈ get_sales sales products) :
    r.revenue = (r.quantitySold : ℚ) * r.price ∧
    ∃ s ∈ sales, ∃ p ∈ products, p.id = s.productId ∧ r.saleId = s.id ∧
      r.quantitySold = s.quantitySold ∧ r.price = p.price ∧
      r.revenue = (s.quantitySold : ℚ) * p.price := by
  unfold get_sales at hr
  rw [List.mem_flatMap] at hr
  obtain ⟨s, hs, hr⟩ := hr
  rw [List.mem_map] at hr
  obtain ⟨p, hpf, hrp⟩ := hr
  rw [List.mem_filter] at hpf
  obtain ⟨hp, hpid⟩ := hpf
  subst hrp
  exact ⟨rfl, s, hs, p, hp, beq_iff_eq.mp hpid, rfl, rfl, rfl, rfl⟩

/-- Witness for C7 on a concrete joined sale: revenue 20 = 2 × 10. -/
theorem enriched_revenue_eq_qty_mul_price_witness :
    (⟨"s1", "Widget", 2, ⟨2025, 1, 6, 0⟩, 10, 20⟩ : EnrichedSale).revenue
      = ((⟨"s1", "Widget", 2, ⟨2025, 1, 6, 0⟩, 10, 20⟩ : EnrichedSale).quantitySold : ℚ)
        * (⟨"s1", "Widget", 2, ⟨2025, 1, 6, 0⟩, 10, 20⟩ : EnrichedSale).price :=
  (enriched_revenue_eq_qty_mul_price [wSale] [wProduct] _
    (by norm_num [get_sales, wSale, wProduct])).1

/-- C5: a sale whose product id matches no product contributes nothing to the
aggregator output (inner-join drop), and aggregation is deterministic. -/
theorem orphan_sale_dropped (l₁ l₂ : List Sale) (products : List Product)
    (s : Sale) (h : ∀ p ∈ products, p.id ≠ s.productId) :
    get_sales (l₁ ++ s :: l₂) products = get_sales (l₁ ++ l₂) products ∧
    get_sales (l₁ ++ l₂) products = get_sales (l₁ ++ l₂) products := by
  refine ⟨?_, rfl⟩
  unfold get_sales
  rw [List.flatMap_append, List.flatMap_append, List.flatMap_cons]
  have hnil : (products.filter fun p => p.id == s.productId) = [] := by
    rw [List.filter_eq_nil_iff]
    intro p hp
    simp [h p hp]
  simp [hnil]

/-- Witness for C5: the orphan sale yields the same output as no sale. -/
theorem orphan_sale_dropped_witness :
    get_sales ([] ++ wOrphanSale :: []) [wProduct] = get_sales ([] ++ []) [wProduct] :=
  (orphan_sale_dropped [] [] [wProduct] wOrphanSale (by decide)).1

theorem weeklyKeys_nodup (sales : List EnrichedSale) : (weeklyKeys sales).Nodup :=
  ((List.perm_insertionSort keyLE (sales.map bucketKey).dedup).nodup_iff).mpr
    (List.nodup_dedup _)

theorem mem_weeklyKeys (sales : List EnrichedSale) (k : Nat × Nat) :
    k ∈ weeklyKeys sales ↔ k ∈ sales.map bucketKey :=
  ((List.perm_insertionSort keyLE (sales.map bucketKey).dedup).mem_iff).trans
    List.mem_dedup

theorem get_weekly_sales_keys (sales : List EnrichedSale) :
    ((get_weekly_sales sales).map fun b => (b.year, b.week)) = weeklyKeys sales := by
  unfold get_weekly_sales
  rw [List.map_map]
  have : ((fun b : WeeklyBucket => (b.year, b.week)) ∘ fun k : Nat × Nat =>
      ({ year := k.1, week := k.2,
         quantitySold := ((sales.filter fun s => bucketKey s == k).map (·.quantitySold)).sum,
         revenue := ((sales.filter fun s => bucketKey s == k).map (·.revenue)).sum }
        : WeeklyBucket)) = fun k => (k.1, k.2) := rfl
  rw [this]
  simp

/-- C6: weekly rollup output is strictly ascending in (year, week) — hence
sorted with no duplicate keys — its per-bucket quantities sum to the total
quantity over all input sales, and empty input yields empty output. -/
theorem weekly_rollup_sorted_nodup_sum (sales : List EnrichedSale) :
    List.Pairwise (fun a b : Nat × Nat => a.1 < b.1 ∨ (a.1 = b.1 ∧ a.2 < b.2))
        ((get_weekly_sales sales).map fun b => (b.year, b.week)) ∧
    ((get_weekly_sales sales).map (·.quantitySold)).sum
        = (sales.map (·.quantitySold)).sum ∧
    get_weekly_sales [] = ([] : List WeeklyBucket) := by
  refine ⟨?_, ?_, rfl⟩
  · rw [get_weekly_sales_keys]
    have hsorted : List.Pairwise keyLE (weeklyKeys sales) :=
      List.sorted_insertionSort keyLE _
    have hnodup : List.Pairwise (fun a b : Nat × Nat => a ≠ b) (weeklyKeys sales) :=
      weeklyKeys_nodup sales
    refine (hsorted.and hnodup).imp ?_
    rintro a b ⟨hle, hne⟩
    rcases hle with h | ⟨h1, h2⟩
    · exact Or.inl h
    · refine Or.inr ⟨h1, ?_⟩
      rcases Nat.lt_or_eq_of_le h2 with h | h
      · exact h
      · exact absurd (Prod.ext h1 h) hne
  · unfold get_weekly_sales
    rw [List.map_map]
    exact sum_map_filter_key bucketKey (·.quantitySold) sales (weeklyKeys sales)
      (weeklyKeys_nodup sales)
      (fun a ha => (mem_weeklyKeys sales (bucketKey a)).mpr
        (List.mem_map_of_mem bucketKey ha))

/-- A sale dated Dec 31 2024 (ISO week 2025-W01). -/
def dec31Sale : EnrichedSale := ⟨"s9", "Widget", 3, ⟨2024, 12, 31, 0⟩, 10, 30⟩

/-- C1 (amended): the bucket key assigned to each sale is its timestamp's
*calendar* year paired with its ISO-8601 week number. -/
theorem bucket_key_is_calendar_year_iso_week (sales : List EnrichedSale)
    (s : EnrichedSale) (hs : s ∈ sales) :
    (s.saleDate.year, (isocalendar s.saleDate).2)
      ∈ (get_weekly_sales sales).map fun b => (b.year, b.week) := by
  rw [get_weekly_sales_keys, mem_weeklyKeys]
  exact List.mem_map_of_mem bucketKey hs

/-- Witness for C1 (amended) on the Dec 31 2024 sale. -/
theorem bucket_key_is_calendar_year_iso_week_witness :
    ((⟨2024, 12, 31, 0⟩ : Timestamp).year, (isocalendar ⟨2024, 12, 31, 0⟩).2)
      ∈ (get_weekly_sales [dec31Sale]).map fun b => (b.year, b.week) :=
  bucket_key_is_calendar_year_iso_week [dec31Sale] dec31Sale
    (List.mem_singleton.mpr rfl)

/-- C1 counterexample: the sale dated 2024-12-31 lies in ISO week 1 of ISO
year 2025, yet the rollup buckets it under (2024, 1) — the calendar year —
contradicting the claim that the bucket key is the ISO (year, week). -/
theorem bucket_key_not_iso_year_dec31 :
    ((get_weekly_sales [dec31Sale]).map fun b => (b.year, b.week)) = [(2024, 1)] ∧
    isocalendar (⟨2024, 12, 31, 0⟩ : Timestamp) = (2025, 1) ∧
    ((2024 : Nat), (1 : Nat)) ≠ ((2025 : Nat), (1 : Nat)) := by
  refine ⟨by decide, by decide, by decide⟩

def dummyBucket : WeeklyBucket := ⟨0, 0, 0, 0⟩

/-- The trend entry at position `i+1` is the lambda applied to the diff of
the bucket quantity at `i+1` against the one at `i`. -/
theorem trendColumn_getD_succ :
    ∀ (l : List WeeklyBucket) (prev : Option ℤ) (i : Nat), i + 1 < l.length →
      (trendColumn prev l).getD (i + 1) "" =
        trendLambda (some ((l.getD (i + 1) dummyBucket).quantitySold
          - (l.getD i dummyBucket).quantitySold))
  | [], _, i, h => by simp at h
  | [b], _, i, h => by simp at h
  | b :: c :: rest, prev, 0, h => by
      simp [trendColumn]
  | b :: c :: rest, prev, i + 1, h => by
      have ih := trendColumn_getD_succ (c :: rest) (some b.quantitySold) i
        (by simpa using h)
      simpa [trendColumn] using ih

/-- C2: with fewer than 2 buckets every trend entry is the literal
'Insufficient Data'; with 2 or more, each bucket with a predecessor is
classified by strict comparison of total quantities. -/
theorem trend_insufficient_or_diff (weekly : List WeeklyBucket) :
    (weekly.length < 2 → ∀ t ∈ get_insights_trend weekly, t = "Insufficient Data") ∧
    (2 ≤ weekly.length → ∀ i, i + 1 < weekly.length →
      (get_insights_trend weekly).getD (i + 1) "" =
        (if (weekly.getD i dummyBucket).quantitySold
              < (weekly.getD (i + 1) dummyBucket).quantitySold then "Increasing"
         else if (weekly.getD (i + 1) dummyBucket).quantitySold
              < (weekly.getD i dummyBucket).quantitySold then "Decreasing"
         else "Stable")) := by
  constructor
  · intro h t ht
    unfold get_insights_trend at ht
    rw [if_neg (by omega)] at ht
    obtain ⟨b, _, rfl⟩ := List.mem_map.mp ht
    rfl
  · intro h i hi
    unfold get_insights_trend
    rw [if_pos h, trendColumn_getD_succ weekly none i hi]
    simp only [trendLambda, sub_pos, sub_neg]

def wBuckets : List WeeklyBucket := [⟨2024, 1, 3, 30⟩, ⟨2024, 2, 5, 50⟩]

/-- Witness for C2: one bucket gives 'Insufficient Data'; with two buckets,
3 units then 5 units gives 'Increasing' for the second. -/
theorem trend_insufficient_or_diff_witness :
    (get_insights_trend [(⟨2024, 1, 3, 30⟩ : WeeklyBucket)]).getD 0 ""
        = "Insufficient Data" ∧
    (get_insights_trend wBuckets).getD 1 "" = "Increasing" := by
  constructor
  · exact (trend_insufficient_or_diff [⟨2024, 1, 3, 30⟩]).1 (by norm_num) _
      (by simp [get_insights_trend])
  · have h2 := (trend_insufficient_or_diff wBuckets).2 (by norm_num [wBuckets]) 0
      (by norm_num [wBuckets])
    exact h2.trans (by norm_num [wBuckets, dummyBucket])

/-- C9: with at least 2 buckets, the first bucket (whose diff is NaN, which
fails both strict comparisons) gets trend 'Stable'. -/
theorem first_bucket_trend_stable (weekly : List WeeklyBucket)
    (h : 2 ≤ weekly.length) :
    (get_insights_trend weekly).getD 0 "" = "Stable" := by
  unfold get_insights_trend
  rw [if_pos h]
  cases weekly with
  | nil => simp at h
  | cons b rest => simp [trendColumn, trendLambda]

/-- Witness for C9 on the two-bucket list. -/
theorem first_bucket_trend_stable_witness :
    (get_insights_trend wBuckets).getD 0 "" = "Stable" :=
  first_bucket_trend_stable wBuckets (by norm_num [wBuckets])

/-- C3: a product whose name has zero total quantity sold in the trailing
30-day window (in particular one with no recent sales at all, filled in as
velocity 0 by the left join) gets days-to-depletion computed without any
division error — `pdDiv` is total, yielding `inf` or `NaN` — and restock
urgency 'Low', whatever its (non-negative) current quantity. -/
theorem zero_velocity_urgency_low (products : List Product)
    (sales : List EnrichedSale) (now : Nat) (p : Product) (hp : p ∈ products)
    (hq : 0 ≤ p.quantity)
    (hzero : (((recent_sales sales now).filter fun s => s.name == p.name).map
        (·.quantitySold)).sum = 0) :
    ∃ r ∈ restock_recommendations products sales now,
      r.name = p.name ∧ r.quantity = p.quantity ∧ r.urgency = "Low" := by
  refine ⟨_, List.mem_map_of_mem _ hp, rfl, rfl, ?_⟩
  have hv : (sales_velocity sales now p.name).getD 0 = 0 := by
    unfold sales_velocity
    dsimp only
    split_ifs with h
    · simp [hzero]
    · rfl
  show urgencyLambda
      (pdDiv (p.quantity : ℚ) ((sales_velocity sales now p.name).getD 0)) = "Low"
  rw [hv]
  unfold pdDiv
  rw [if_pos rfl]
  rcases lt_or_eq_of_le hq with h | h
  · rw [if_pos (by exact_mod_cast h)]
    rfl
  · have h0 : (p.quantity : ℚ) = 0 := by exact_mod_cast h.symm
    rw [if_neg (by rw [h0]; exact lt_irrefl 0), if_neg (by rw [h0]; exact lt_irrefl 0)]
    rfl

/-- Witness for C3: a product with stock 7 and no sales at all is 'Low'. -/
theorem zero_velocity_urgency_low_witness :
    ∃ r ∈ restock_recommendations [wProduct] [] 0,
      r.name = wProduct.name ∧ r.quantity = wProduct.quantity ∧
      r.urgency = "Low" :=
  zero_velocity_urgency_low [wProduct] [] 0 wProduct
    (List.mem_singleton.mpr rfl) (by norm_num [wProduct]) rfl

theorem groupNames_nodup (sales : List EnrichedSale) : (groupNames sales).Nodup := by
  unfold groupNames
  exact ((List.perm_insertionSort _ _).nodup_iff).mpr (List.nodup_dedup _)

theorem mem_groupNames (sales : List EnrichedSale) (n : String) :
    n ∈ groupNames sales ↔ n ∈ sales.map (·.name) := by
  unfold groupNames
  exact ((List.perm_insertionSort _ _).mem_iff).trans List.mem_dedup

/-- C4: under the data-model invariants (every enriched sale has strictly
positive revenue, since prices and quantities sold are positive), the
per-product contribution percentages sum to exactly 100 whenever total
revenue is positive, and a zero total revenue — which then forces an empty
sale set — yields an empty contribution list, not a numeric error. -/
theorem revenue_contribution_sum (sales : List EnrichedSale)
    (hpos : ∀ r ∈ sales, 0 < r.revenue) :
    (0 < total_revenue sales →
      ((revenue_contribution sales).map (·.2)).sum = 100) ∧
    (total_revenue sales = 0 → revenue_contribution sales = []) := by
  constructor
  · intro hT
    unfold revenue_contribution
    rw [List.map_map]
    have hcomp : ((fun x : String × ℚ => x.2) ∘ fun n =>
        (n, ((sales.filter fun s => s.name == n).map (·.revenue)).sum
              / total_revenue sales * 100))
        = fun n => ((sales.filter fun s => s.name == n).map (·.revenue)).sum
              * (100 / total_revenue sales) := by
      funext n
      show ((sales.filter fun s => s.name == n).map (·.revenue)).sum
              / total_revenue sales * 100
          = ((sales.filter fun s => s.name == n).map (·.revenue)).sum
              * (100 / total_revenue sales)
      ring
    rw [hcomp, List.sum_map_mul_right]
    rw [sum_map_filter_key (fun s : EnrichedSale => s.name) (·.revenue) sales
      (groupNames sales) (groupNames_nodup sales)
      (fun a ha => (mem_groupNames sales a.name).mpr
        (List.mem_map_of_mem _ ha))]
    have hTne : total_revenue sales ≠ 0 := ne_of_gt hT
    show total_revenue sales * (100 / total_revenue sales) = 100
    field_simp
  · intro hT
    cases sales with
    | nil => rfl
    | cons a tl =>
        exfalso
        have hpos' : 0 < total_revenue (a :: tl) := by
          apply List.sum_pos
          · intro x hx
            obtain ⟨r, hr, rfl⟩ := List.mem_map.mp hx
            exact hpos r hr
          · simp
        exact absurd hT (ne_of_gt hpos')

def wEnriched : EnrichedSale := ⟨"s1", "Widget", 2, ⟨2025, 1, 6, 0⟩, 10, 20⟩

/-- Witness for C4: one sale of revenue 20 contributes 100%; no sales give
an empty contribution list. -/
theorem revenue_contribution_sum_witness :
    (0 < total_revenue [wEnriched] ∧
      ((revenue_contribution [wEnriched]).map (·.2)).sum = 100) ∧
    revenue_contribution [] = [] := by
  constructor
  · have hpos : ∀ r ∈ [wEnriched], 0 < r.revenue := by
      intro r hr
      rw [List.mem_singleton.mp hr]
      norm_num [wEnriched]
    have hT : 0 < total_revenue [wEnriched] := by
      norm_num [total_revenue, wEnriched]
    exact ⟨hT, (revenue_contribution_sum [wEnriched] hpos).1 hT⟩
  · exact (revenue_contribution_sum [] (by simp)).2 rfl
